import Mathlib

/-!
Verification of the CRC checksum engine of Serialib.

The repository ships two engines:
* `src/include/authlib.hpp` — a specialized 8-bit engine (`ubn::authlib::detail`)
  with a width-generic table builder `generateCRCTable` and a per-variant
  dispatch `initCRCTable` / `generateCRCCode`;
* `src/include/serialib.hpp` — an older 8-bit-only table builder
  `generateCRC8Table` plus a fully generalized engine `generateCRCCode`
  parameterized by (width, polynomial, init, xor_out, ref_in, ref_out) and a
  variant catalog `crc_gen`.

Machine integers of width `w` are embedded as `Nat` with explicit `% 2 ^ w`
where the C++ type would truncate (assignment to the fixed-width register or
table slot).  Left shift and xor never carry high bits into low positions, so
truncating at every register update yields the same stored values as the C++
integer-promotion arithmetic does for the 8/16-bit instantiations, and is
bit-exact for the 32/64-bit ones.

The C++ checksum loops are `do { ... } while (--_size);` over a raw pointer;
a read past the end of the buffer (which happens when `_size == 0`, since the
unsigned counter wraps) is modelled as `none`.
-/

namespace Crc

/-- Loop body of `binaryReverse<size>` of authlib.hpp / serialib.hpp: iterate `size` times,
shifting the accumulator left and appending the low bit of the input, which is
shifted right each round. -/
def binaryReverseAux : Nat → Nat → Nat → Nat
  | 0, _, acc => acc
  | n + 1, b, acc => binaryReverseAux n (b >>> 1) ((acc <<< 1) ||| (b &&& 1))

/-- Function `binaryReverse<size>(b)` of authlib.hpp / serialib.hpp: reverse the low `size` bits of `b`. -/
def binaryReverse (size b : Nat) : Nat :=
  binaryReverseAux size b 0

/-- One round of the polynomial-division loop of `generateCRCTable`
(authlib.hpp lines 38-41, serialib.hpp lines 477-480): test the register
against `mask = 0x80 << (bits - 8)`, shift left, xor the polynomial when the
tested bit was set.  The `% 2 ^ bits` is the truncation of the width-`bits`
register. -/
def crcTableStep (bits poly crc : Nat) : Nat :=
  if crc &&& (0x80 <<< (bits - 8)) ≠ 0 then ((crc <<< 1) ^^^ poly) % 2 ^ bits
  else (crc <<< 1) % 2 ^ bits

/-- One entry of the generalized CRC table: seed from the byte (reflected
across the width and shifted down when `ref_in`), run the division loop
`bits` times, reflect the result when `ref_out`, store truncated to the
width. -/
def crcTableEntry (bits poly : Nat) (ref_in ref_out : Bool) (byte : Nat) : Nat :=
  let seed := if ref_in then binaryReverse bits byte >>> (bits - 8) else byte
  let crc := (crcTableStep bits poly)^[bits] seed
  (if ref_out then binaryReverse bits crc else crc) % 2 ^ bits

/-- Function `generateCRCTable` of authlib.hpp (lines 27-46) and serialib.hpp
(lines 468-485): the two files define the identical routine; it fills all 256
entries, one for each byte value in `iota_view(0, 256)`. -/
def generateCRCTable (bits poly : Nat) (ref_in ref_out : Bool) : List Nat :=
  (List.range 256).map (crcTableEntry bits poly ref_in ref_out)

/-- The `do { crc = f(crc, *_data++); } while (--_size);` loop shared by both
checksum engines.  `size` is the `std::size_t` counter: decrementing it wraps
modulo `2 ^ 64`.  Reading a byte past the end of the buffer is modelled as
`none`. -/
def doWhileFold (f : Nat → Nat → Nat) : Nat → List Nat → Nat → Option Nat
  | _, [], _ => none
  | crc, b :: rest, size =>
    let c := f crc b
    let s := (size + (2 ^ 64 - 1)) % 2 ^ 64
    if s = 0 then some c else doWhileFold f c rest s

end Crc

namespace Serialib

/-- The five template parameters of `generateCRCCode` in serialib.hpp
(line 488): register width in bits (from the integral type `V`), polynomial,
initial register value, final xor mask, and the two reflection flags. -/
structure CRCParams where
  bits : Nat
  poly : Nat
  init : Nat
  xorOut : Nat
  refIn : Bool
  refOut : Bool
  deriving DecidableEq, Repr

/-- The per-byte register update of `generateCRCCode` (serialib.hpp line 496):
the table index is `(ref_in ? crc & 0xff : crc >> shift) ^ byte` and the new
register is `(ref_out ? crc >> 8 : crc << 8) ^ table[index]`, truncated to the
register width on assignment. -/
def crcStep (P : CRCParams) (tbl : List Nat) (crc b : Nat) : Nat :=
  ((if P.refOut then crc >>> 8 else crc <<< 8) ^^^
    tbl.getD ((if P.refIn then crc &&& 0xff else crc >>> (P.bits - 8)) ^^^ b) 0) % 2 ^ P.bits

/-- Function `generateCRCCode` of serialib.hpp (lines 487-500): build the table, run
the do-while over the buffer starting from `init`, xor `xor_out` into the
final register. -/
def generateCRCCode (P : CRCParams) (data : List Nat) : Option Nat :=
  (Crc.doWhileFold (crcStep P (Crc.generateCRCTable P.bits P.poly P.refIn P.refOut))
      P.init data data.length).map (fun c => c ^^^ P.xorOut)

/-- The variant tags of serialib.hpp `CRCTypes` (lines 451-456). -/
inductive CRCTypes where
  | crc8 | crc8_cdma2000 | crc8_darc | crc8_dvb_s2 | crc8_ebu | crc8_i_code
  | crc8_itu | crc8_maxim | crc8_rohc | crc8_wcdma
  | crc16_a | crc16_arc | crc16_aug_ccitt | crc16_buypass | crc16_ccitt_false
  | crc16_cdma2000 | crc16_dds_110 | crc16_dect_r | crc16_dect_x | crc16_dnp
  | crc16_en_13757 | crc16_genibus | crc16_kermit | crc16_maxim | crc16_mcrf4xx
  | crc16_modbus | crc16_riello | crc16_t10_dif | crc16_teledisk | crc16_tms37157
  | crc16_usb | crc16_x_25 | crc16_xmodem
  | crc32 | crc32_bzip2 | crc32_c | crc32_d | crc32_jamcrc | crc32_mpeg_2
  | crc32_posix | crc32_q | crc32_xfer
  | crc64_ecma | crc64_iso
  deriving DecidableEq, Repr

/-- The template-argument tuples of the `crc_gen` dispatch (serialib.hpp
lines 509-555), one row per variant tag. -/
def crcParams : CRCTypes → CRCParams
  | .crc8          => ⟨8, 0x07, 0x00, 0x00, false, false⟩
  | .crc8_cdma2000 => ⟨8, 0x9b, 0xff, 0x00, false, false⟩
  | .crc8_darc     => ⟨8, 0x39, 0x00, 0x00, true,  true⟩
  | .crc8_dvb_s2   => ⟨8, 0xd5, 0x00, 0x00, false, false⟩
  | .crc8_ebu      => ⟨8, 0x1d, 0xff, 0x00, true,  true⟩
  | .crc8_i_code   => ⟨8, 0x1d, 0xfd, 0x00, false, false⟩
  | .crc8_itu      => ⟨8, 0x07, 0x00, 0x55, false, false⟩
  | .crc8_maxim    => ⟨8, 0x31, 0x00, 0x00, true,  true⟩
  | .crc8_rohc     => ⟨8, 0x07, 0xff, 0x00, true,  true⟩
  | .crc8_wcdma    => ⟨8, 0x9b, 0x00, 0x00, true,  true⟩
  | .crc16_a           => ⟨16, 0x1021, 0xc6c6, 0x0000, true,  true⟩
  | .crc16_arc         => ⟨16, 0x8005, 0x0000, 0x0000, true,  true⟩
  | .crc16_aug_ccitt   => ⟨16, 0x1021, 0x1d0f, 0x0000, false, false⟩
  | .crc16_buypass     => ⟨16, 0x8005, 0x0000, 0x0000, false, false⟩
  | .crc16_ccitt_false => ⟨16, 0x1021, 0xffff, 0x0000, false, false⟩
  | .crc16_cdma2000    => ⟨16, 0xc867, 0xffff, 0x0000, false, false⟩
  | .crc16_dds_110     => ⟨16, 0x8005, 0x800d, 0x0000, false, false⟩
  | .crc16_dect_r      => ⟨16, 0x0589, 0x0000, 0x0001, false, false⟩
  | .crc16_dect_x      => ⟨16, 0x0589, 0x0000, 0x0000, false, false⟩
  | .crc16_dnp         => ⟨16, 0x3d65, 0x0000, 0xffff, true,  true⟩
  | .crc16_en_13757    => ⟨16, 0x3d65, 0x0000, 0xffff, false, false⟩
  | .crc16_genibus     => ⟨16, 0x1021, 0xffff, 0xffff, false, false⟩
  | .crc16_kermit      => ⟨16, 0x1021, 0x0000, 0x0000, true,  true⟩
  | .crc16_maxim       => ⟨16, 0x8005, 0x0000, 0xffff, true,  true⟩
  | .crc16_mcrf4xx     => ⟨16, 0x1021, 0xffff, 0x0000, true,  true⟩
  | .crc16_modbus      => ⟨16, 0x8005, 0xffff, 0x0000, true,  true⟩
  | .crc16_riello      => ⟨16, 0x1021, 0xb2aa, 0x0000, true,  true⟩
  | .crc16_t10_dif     => ⟨16, 0x8bb7, 0x0000, 0x0000, false, false⟩
  | .crc16_teledisk    => ⟨16, 0xa097, 0x0000, 0x0000, false, false⟩
  | .crc16_tms37157    => ⟨16, 0x1021, 0x89ec, 0x0000, true,  true⟩
  | .crc16_usb         => ⟨16, 0x8005, 0xffff, 0xffff, true,  true⟩
  | .crc16_x_25        => ⟨16, 0x1021, 0xffff, 0xffff, true,  true⟩
  | .crc16_xmodem      => ⟨16, 0x1021, 0x0000, 0x0000, false, false⟩
  | .crc32        => ⟨32, 0x04c11db7, 0xffffffff, 0xffffffff, true,  true⟩
  | .crc32_bzip2  => ⟨32, 0x04c11db7, 0xffffffff, 0xffffffff, false, false⟩
  | .crc32_c      => ⟨32, 0x1edc6f41, 0xffffffff, 0xffffffff, true,  true⟩
  | .crc32_d      => ⟨32, 0xa833982b, 0xffffffff, 0xffffffff, true,  true⟩
  | .crc32_jamcrc => ⟨32, 0x04c11db7, 0xffffffff, 0x00000000, true,  true⟩
  | .crc32_mpeg_2 => ⟨32, 0x04c11db7, 0xffffffff, 0x00000000, false, false⟩
  | .crc32_posix  => ⟨32, 0x04c11db7, 0x00000000, 0xffffffff, false, false⟩
  | .crc32_q      => ⟨32, 0x814141ab, 0x00000000, 0x00000000, false, false⟩
  | .crc32_xfer   => ⟨32, 0x000000af, 0x00000000, 0x00000000, false, false⟩
  | .crc64_ecma => ⟨64, 0x42f0e1eba9ea3693, 0xffffffffffffffff, 0xffffffffffffffff, true, true⟩
  | .crc64_iso  => ⟨64, 0x000000000000001b, 0xffffffffffffffff, 0xffffffffffffffff, true, true⟩

/-- Dispatcher `ubn::crc_gen<T>` of serialib.hpp (lines 505-556): dispatch the buffer to
`generateCRCCode` instantiated with the variant's parameter tuple. -/
def crc_gen (T : CRCTypes) (data : List Nat) : Option Nat :=
  generateCRCCode (crcParams T) data

/-- One entry of `generateCRC8Table` (serialib.hpp lines 365-379): seed from
the byte (bit-reversed when `ref_in`), run the 8-bit division loop in promoted
`int` arithmetic, reflect when `ref_out`, truncate on assignment to the
`unsigned char` slot. -/
def crc8TableEntry (poly : Nat) (ref_in ref_out : Bool) (byte : Nat) : Nat :=
  let seed := if ref_in then Crc.binaryReverse 8 byte else byte
  let crc := (fun c => if c &&& 0x80 ≠ 0 then (c <<< 1) ^^^ poly else c <<< 1)^[8] seed
  (if ref_out then Crc.binaryReverse 8 crc else crc) % 256

/-- Function `generateCRC8Table` of serialib.hpp (lines 365-379).  The loop is
`for (byte : iota_view(1, 256))`, so the slot for byte value 0 is never
assigned; an unassigned slot of the declared-but-uninitialized
`std::array<unsigned char, 256>` is modelled as `none`. -/
def generateCRC8Table (poly : Nat) (ref_in ref_out : Bool) : List (Option Nat) :=
  (List.range' 1 255).foldl
    (fun t byte => t.set byte (some (crc8TableEntry poly ref_in ref_out byte)))
    (List.replicate 256 none)

/-- Modelled from the spec (§4.3 pseudocode): the generalized table-driven
fold, `crc = init`, per byte
`crc = (ref_out ? crc >> 8 : crc << 8) ^ table[(ref_in ? crc & 0xff : crc >> (width-8)) ^ b]`
truncated to the width, and finally `crc ^ xor_out`.  Stated as a total
`List.foldl`, to be compared with the do-while engine of the source. -/
def specCompute (P : CRCParams) (data : List Nat) : Nat :=
  (data.foldl
    (fun crc b =>
      ((if P.refOut then crc >>> 8 else crc <<< 8) ^^^
        (Crc.generateCRCTable P.bits P.poly P.refIn P.refOut).getD
          ((if P.refIn then crc &&& 0xff else crc >>> (P.bits - 8)) ^^^ b) 0) % 2 ^ P.bits)
    P.init) ^^^ P.xorOut

/-- The 9-byte ASCII buffer `"123456789"` used for published check values. -/
def checkVector : List Nat :=
  [0x31, 0x32, 0x33, 0x34, 0x35, 0x36, 0x37, 0x38, 0x39]

end Serialib

namespace Authlib

/-- The variant tags of authlib.hpp `crc_types` (line 14). -/
inductive Crc8Type where
  | ccitt | itu | rohc | ebu | i_code | maxim | darc | cdma2000 | wcdma | dvb_s2
  deriving DecidableEq, Repr

/-- Function `initCRCTable<T>` of authlib.hpp (lines 48-60): per-variant table built by
`generateCRCTable<uint8_t>(polynomial, ref_in, ref_out)` (8-bit registers). -/
def initCRCTable : Crc8Type → List Nat
  | .ccitt    => Crc.generateCRCTable 8 0x07 false false
  | .itu      => Crc.generateCRCTable 8 0x07 false false
  | .rohc     => Crc.generateCRCTable 8 0x07 true  true
  | .ebu      => Crc.generateCRCTable 8 0x1d true  true
  | .i_code   => Crc.generateCRCTable 8 0x1d false false
  | .maxim    => Crc.generateCRCTable 8 0x31 true  true
  | .darc     => Crc.generateCRCTable 8 0x39 true  true
  | .cdma2000 => Crc.generateCRCTable 8 0x9b false false
  | .wcdma    => Crc.generateCRCTable 8 0x9b true  true
  | .dvb_s2   => Crc.generateCRCTable 8 0xd5 false false

/-- The hard-coded initial register of `generateCRCCode` (authlib.hpp
lines 66-71): `0xff` for rohc/ebu/cdma2000, `0xfd` for i_code, else `0`. -/
def initCode : Crc8Type → Nat
  | .rohc => 0xff
  | .ebu => 0xff
  | .cdma2000 => 0xff
  | .i_code => 0xfd
  | _ => 0x00

/-- Function `generateCRCCode<T>` of authlib.hpp (lines 62-79): the do-while loop
`crc_code = crc_table.at(crc_code ^ *_data++)` from the hard-coded initial
value, with the final `^= 0x55` for the itu variant. -/
def generateCRCCode (v : Crc8Type) (data : List Nat) : Option Nat :=
  (Crc.doWhileFold (fun crc b => (initCRCTable v).getD (crc ^^^ b) 0)
      (initCode v) data data.length).map
    (fun c => if v = Crc8Type.itu then c ^^^ 0x55 else c)

/-- Dispatcher `ubn::crc_gen<T>` of authlib.hpp (lines 84-87). -/
def crc_gen (v : Crc8Type) (data : List Nat) : Option Nat :=
  generateCRCCode v data

/-- The serialib catalog tag carrying the same parameter tuple that the
authlib dispatch hard-codes for each 8-bit variant. -/
def toCRCType : Crc8Type → Serialib.CRCTypes
  | .ccitt    => .crc8
  | .itu      => .crc8_itu
  | .rohc     => .crc8_rohc
  | .ebu      => .crc8_ebu
  | .i_code   => .crc8_i_code
  | .maxim    => .crc8_maxim
  | .darc     => .crc8_darc
  | .cdma2000 => .crc8_cdma2000
  | .wcdma    => .crc8_wcdma
  | .dvb_s2   => .crc8_dvb_s2

end Authlib

/-! ### Bit-reversal lemmas -/

theorem binaryReverseAux_testBit (n : Nat) :
    ∀ b acc i : Nat, (Crc.binaryReverseAux n b acc).testBit i =
      if i < n then b.testBit (n - 1 - i) else acc.testBit (i - n) := by
  induction n with
  | zero =>
    intro b acc i
    simp [Crc.binaryReverseAux]
  | succ n ih =>
    intro b acc i
    rw [Crc.binaryReverseAux, ih]
    rcases Nat.lt_trichotomy i n with h | h | h
    · rw [if_pos h, if_pos (Nat.lt_succ_of_lt h), Nat.testBit_shiftRight]
      congr 1
      omega
    · subst h
      rw [if_neg (Nat.lt_irrefl i), if_pos (Nat.lt_succ_self i), Nat.sub_self,
        Nat.testBit_or, Nat.testBit_shiftLeft, Nat.testBit_and]
      have h1 : (1 : Nat).testBit 0 = true := Nat.testBit_one_zero
      have hz : i + 1 - 1 - i = 0 := by omega
      simp [h1, hz]
    · rw [if_neg (by omega), if_neg (by omega), Nat.testBit_or, Nat.testBit_shiftLeft,
        Nat.testBit_and]
      have h1 : (1 : Nat).testBit (i - n) = false :=
        Nat.testBit_lt_two_pow (Nat.one_lt_two_pow (by omega))
      have hge : (i - n ≥ 1) = True := by simp; omega
      have harg : i - n - 1 = i - (n + 1) := by omega
      simp [h1, hge, harg]

theorem binaryReverse_testBit (n b i : Nat) :
    (Crc.binaryReverse n b).testBit i = if i < n then b.testBit (n - 1 - i) else false := by
  rw [Crc.binaryReverse, binaryReverseAux_testBit]
  simp

theorem binaryReverse_lt (n b : Nat) : Crc.binaryReverse n b < 2 ^ n :=
  Nat.lt_pow_two_of_testBit _ fun i hi => by
    rw [binaryReverse_testBit, if_neg (by omega)]

theorem binaryReverse_zero (n : Nat) : Crc.binaryReverse n 0 = 0 := by
  apply Nat.eq_of_testBit_eq
  intro i
  rw [binaryReverse_testBit]
  simp

theorem binaryReverse_binaryReverse (w x : Nat) (hx : x < 2 ^ w) :
    Crc.binaryReverse w (Crc.binaryReverse w x) = x := by
  apply Nat.eq_of_testBit_eq
  intro i
  rw [binaryReverse_testBit]
  by_cases h : i < w
  · rw [if_pos h, binaryReverse_testBit, if_pos (by omega)]
    congr 1
    omega
  · rw [if_neg h]
    exact (Nat.testBit_lt_two_pow
      (Nat.lt_of_lt_of_le hx (Nat.pow_le_pow_right (by omega) (by omega)))).symm

/-! ### Table lemmas -/

theorem generateCRCTable_length (bits poly : Nat) (ri ro : Bool) :
    (Crc.generateCRCTable bits poly ri ro).length = 256 := by
  simp [Crc.generateCRCTable]

theorem generateCRCTable_getD (bits poly : Nat) (ri ro : Bool) (i : Nat) (h : i < 256) :
    (Crc.generateCRCTable bits poly ri ro).getD i 0 = Crc.crcTableEntry bits poly ri ro i := by
  rw [Crc.generateCRCTable, List.getD_eq_getElem?_getD, List.getElem?_map,
    List.getElem?_range h]
  rfl

theorem crcTableEntry_lt (bits poly : Nat) (ri ro : Bool) (byte : Nat) :
    Crc.crcTableEntry bits poly ri ro byte < 2 ^ bits :=
  Nat.mod_lt _ (Nat.two_pow_pos bits)

theorem generateCRCTable_getD_lt (bits poly : Nat) (ri ro : Bool) (i : Nat) :
    (Crc.generateCRCTable bits poly ri ro).getD i 0 < 2 ^ bits := by
  rcases Nat.lt_or_ge i 256 with h | h
  · rw [generateCRCTable_getD bits poly ri ro i h]
    exact crcTableEntry_lt bits poly ri ro i
  · rw [List.getD_eq_getElem?_getD, List.getElem?_eq_none (by
      rw [generateCRCTable_length]; omega)]
    exact Nat.two_pow_pos bits

theorem crcTableEntry_zero (bits poly : Nat) (ri ro : Bool) :
    Crc.crcTableEntry bits poly ri ro 0 = 0 := by
  have hseed : (if ri then Crc.binaryReverse bits 0 >>> (bits - 8) else 0) = 0 := by
    cases ri <;> simp [binaryReverse_zero]
  have hstep : Crc.crcTableStep bits poly 0 = 0 := by
    simp [Crc.crcTableStep]
  have hiter : (Crc.crcTableStep bits poly)^[bits] 0 = 0 :=
    Function.iterate_fixed hstep bits
  rw [Crc.crcTableEntry]
  simp only [hseed, hiter]
  cases ro <;> simp [binaryReverse_zero]

/-! ### Do-while loop lemmas -/

theorem doWhileFold_nil (f : Nat → Nat → Nat) (crc size : Nat) :
    Crc.doWhileFold f crc [] size = none := rfl

theorem doWhileFold_eq_foldl (f : Nat → Nat → Nat) :
    ∀ (data : List Nat) (crc : Nat), data ≠ [] → data.length < 2 ^ 64 →
      Crc.doWhileFold f crc data data.length = some (data.foldl f crc) := by
  intro data
  induction data with
  | nil => intro crc h _; exact absurd rfl h
  | cons b rest ih =>
    intro crc _ hlen
    rw [Crc.doWhileFold]
    have hs : (rest.length + 1 + (2 ^ 64 - 1)) % 2 ^ 64 = rest.length := by
      have h1 : rest.length + 1 < 2 ^ 64 := by simpa using hlen
      omega
    simp only [List.length_cons, hs]
    rcases List.eq_nil_or_concat rest with hr | _
    · subst hr
      simp [List.foldl]
    · have hne : rest ≠ [] := by
        intro hc
        subst hc
        simp_all
      have hlt : rest.length ≠ 0 := by
        intro hc
        exact hne (List.eq_nil_of_length_eq_zero hc)
      rw [if_neg hlt]
      have := ih (f crc b) hne (by simp at hlen; omega)
      simpa [List.foldl] using this

theorem doWhileFold_some_lt (f : Nat → Nat → Nat) (M : Nat)
    (hf : ∀ c b, f c b < M) :
    ∀ (data : List Nat) (crc size v : Nat),
      Crc.doWhileFold f crc data size = some v → v < M := by
  intro data
  induction data with
  | nil => intro crc size v h; simp [Crc.doWhileFold] at h
  | cons b rest ih =>
    intro crc size v h
    rw [Crc.doWhileFold] at h
    by_cases hs : (size + (2 ^ 64 - 1)) % 2 ^ 64 = 0
    · rw [if_pos hs] at h
      cases h
      exact hf crc b
    · rw [if_neg hs] at h
      exact ih _ _ _ h

/-! ### Helper for the uninitialized slot of `generateCRC8Table` -/

theorem foldl_set_getElem_zero (g : Nat → Option Nat) :
    ∀ (l : List Nat) (t : List (Option Nat)), (∀ i ∈ l, i ≠ 0) →
      (l.foldl (fun t i => t.set i (g i)) t)[0]? = t[0]? := by
  intro l
  induction l with
  | nil => intro t _; rfl
  | cons a l ih =>
    intro t h
    rw [List.foldl_cons, ih _ (fun i hi => h i (List.mem_cons_of_mem a hi)),
      List.getElem?_set_ne (h a (List.mem_cons_self a l))]

/-! ### Claim theorems -/

set_option maxRecDepth 40000 in
/-- C1: on the 9-byte ASCII buffer `"123456789"` the checksum engine returns
the published check value of each variant: CRC-8/MAXIM yields `0xA1`,
CRC-16/CCITT-FALSE yields `0x29B1`, and CRC-32 yields `0xCBF43926`. -/
theorem crc_gen_known_vectors :
    Serialib.crc_gen .crc8_maxim Serialib.checkVector = some 0xa1 ∧
    Serialib.crc_gen .crc16_ccitt_false Serialib.checkVector = some 0x29b1 ∧
    Serialib.crc_gen .crc32 Serialib.checkVector = some 0xcbf43926 := by
  refine ⟨?_, ?_, ?_⟩ <;> decide

/-- C2 (evaluation at the failing input): on the empty buffer the generalized
engine does not return `init ^^^ xor_out`; its `do`-`while` loop immediately
reads past the end of the buffer (modelled as `none`), for every parameter
set. -/
theorem generateCRCCode_nil_eq_none (P : Serialib.CRCParams) :
    Serialib.generateCRCCode P [] = none := rfl

/-- C3 (evaluation at the failing input): the computation is not total on the
empty buffer — instead of performing `len(data) = 0` iterations, the
specialized 8-bit engine's `do`-`while` loop reads past the end of the buffer
(modelled as `none`), for every variant. -/
theorem authlib_crc_gen_nil_eq_none (v : Authlib.Crc8Type) :
    Authlib.crc_gen v [] = none := rfl

/-- C4 (evaluation at the failing input): `generateCRC8Table` of serialib.hpp
iterates over `iota_view(1, 256)`, so the table slot for byte value 0 is never
assigned (modelled as `none`) — the builder does not define all 256 entries. -/
theorem generateCRC8Table_entry_zero_unset (poly : Nat) (ri ro : Bool) :
    (Serialib.generateCRC8Table poly ri ro)[0]? = some none := by
  have hmem : ∀ i ∈ List.range' 1 255, i ≠ 0 := by
    intro i hi
    obtain ⟨j, _, rfl⟩ := List.mem_range'.mp hi
    omega
  have h := foldl_set_getElem_zero
    (fun byte => some (Serialib.crc8TableEntry poly ri ro byte))
    (List.range' 1 255) (List.replicate 256 none) hmem
  rw [Serialib.generateCRC8Table, h]
  exact List.getElem?_replicate_of_lt (by omega)

/-- C6: bit reflection is an involution: for every width `w ≥ 1` and every
value `x` representable in `w` bits, `reflect(reflect(x, w), w) = x`. -/
theorem binaryReverse_involutive (w x : Nat) (_hw : 1 ≤ w) (hx : x < 2 ^ w) :
    Crc.binaryReverse w (Crc.binaryReverse w x) = x :=
  binaryReverse_binaryReverse w x hx

/-- Witness for C6 at `w = 8`, `x = 0x35`. -/
theorem binaryReverse_involutive_witness :
    1 ≤ 8 ∧ 0x35 < 2 ^ 8 ∧ Crc.binaryReverse 8 (Crc.binaryReverse 8 0x35) = 0x35 :=
  ⟨by decide, by decide, binaryReverse_involutive 8 0x35 (by decide) (by decide)⟩

/-- C8: the dispatch parameters of the variant catalog match the spec's
representative rows for CRC-8/MAXIM and CRC-64/ECMA. -/
theorem crcParams_maxim_ecma :
    Serialib.crcParams .crc8_maxim = ⟨8, 0x31, 0x00, 0x00, true, true⟩ ∧
    Serialib.crcParams .crc64_ecma =
      ⟨64, 0x42f0e1eba9ea3693, 0xffffffffffffffff, 0xffffffffffffffff, true, true⟩ :=
  ⟨rfl, rfl⟩

/-- C9: for every width, polynomial and reflection-flag combination, entry 0
of the 256-entry table produced by the table builder equals 0. -/
theorem generateCRCTable_entry_zero (bits poly : Nat) (ri ro : Bool) :
    (Crc.generateCRCTable bits poly ri ro).getD 0 0 = 0 := by
  rw [generateCRCTable_getD bits poly ri ro 0 (by omega)]
  exact crcTableEntry_zero bits poly ri ro

/-! ### Bitwise arithmetic helpers -/

theorem xor_mod_two_pow (a b k : Nat) :
    (a ^^^ b) % 2 ^ k = (a % 2 ^ k) ^^^ (b % 2 ^ k) := by
  apply Nat.eq_of_testBit_eq
  intro i
  by_cases h : i < k
  · simp [Nat.testBit_mod_two_pow, h]
  · simp [Nat.testBit_mod_two_pow, h]

/-- C5: for every parameter set and every non-empty buffer (whose length fits
in the `std::size_t` counter), the engine's do-while computes exactly the
generalized table-driven fold of the spec's pseudocode. -/
theorem generateCRCCode_eq_specCompute (P : Serialib.CRCParams) (data : List Nat)
    (hne : data ≠ []) (hlen : data.length < 2 ^ 64) :
    Serialib.generateCRCCode P data = some (Serialib.specCompute P data) := by
  rw [Serialib.generateCRCCode,
    doWhileFold_eq_foldl _ data P.init hne hlen]
  rfl

/-- Witness for C5 at a concrete parameter set and buffer. -/
theorem generateCRCCode_eq_specCompute_witness :
    ([1, 2, 3] : List Nat) ≠ [] ∧ ([1, 2, 3] : List Nat).length < 2 ^ 64 ∧
    Serialib.generateCRCCode ⟨8, 0x31, 0, 0, true, true⟩ [1, 2, 3] =
      some (Serialib.specCompute ⟨8, 0x31, 0, 0, true, true⟩ [1, 2, 3]) :=
  ⟨by decide, by decide,
    generateCRCCode_eq_specCompute ⟨8, 0x31, 0, 0, true, true⟩ [1, 2, 3]
      (by decide) (by decide)⟩

/-- C7: whenever the engine returns a value, that value fits in the variant's
register width. -/
theorem crc_gen_lt_two_pow (T : Serialib.CRCTypes) (data : List Nat) (v : Nat)
    (h : Serialib.crc_gen T data = some v) :
    v < 2 ^ (Serialib.crcParams T).bits := by
  rw [Serialib.crc_gen, Serialib.generateCRCCode] at h
  rcases Option.map_eq_some'.mp h with ⟨c, hc, hv⟩
  have hcl : c < 2 ^ (Serialib.crcParams T).bits := by
    refine doWhileFold_some_lt _ _ ?_ data _ _ _ hc
    intro c' b'
    exact Nat.mod_lt _ (Nat.two_pow_pos _)
  have hxor : ∀ S : Serialib.CRCTypes,
      (Serialib.crcParams S).xorOut < 2 ^ (Serialib.crcParams S).bits := by
    intro S
    cases S <;> decide
  subst hv
  exact Nat.xor_lt_two_pow hcl (hxor T)

set_option maxRecDepth 40000 in
/-- Witness for C7 at CRC-8/MAXIM on the one-byte buffer `[0x31]`. -/
theorem crc_gen_lt_two_pow_witness :
    Serialib.crc_gen .crc8_maxim [0x31] = some 0xe0 ∧
    0xe0 < 2 ^ (Serialib.crcParams .crc8_maxim).bits :=
  ⟨by decide, crc_gen_lt_two_pow .crc8_maxim [0x31] 0xe0 (by decide)⟩

/-! ### Refinement of the authlib 8-bit engine by the generalized engine -/

theorem initCRCTable_getD_lt (v : Authlib.Crc8Type) (i : Nat) :
    (Authlib.initCRCTable v).getD i 0 < 256 := by
  have h256 : (256 : Nat) = 2 ^ 8 := by norm_num
  rw [h256]
  cases v <;> exact generateCRCTable_getD_lt 8 _ _ _ i

theorem crcStep_width8 (P : Serialib.CRCParams) (h8 : P.bits = 8) (tbl : List Nat)
    (htbl : ∀ i, tbl.getD i 0 < 256) (c b : Nat) (hc : c < 256) :
    Serialib.crcStep P tbl c b = tbl.getD (c ^^^ b) 0 := by
  have h256 : (2 : Nat) ^ 8 = 256 := by norm_num
  have hc2 : c < 2 ^ 8 := by omega
  rw [Serialib.crcStep, h8]
  have hidx : (if P.refIn then c &&& 0xff else c >>> (8 - 8)) = c := by
    cases P.refIn
    · rw [if_neg (by simp), Nat.sub_self, Nat.shiftRight_zero]
    · rw [if_pos rfl]
      have hand := Nat.and_pow_two_sub_one_of_lt_two_pow hc2
      norm_num at hand
      exact hand
  rw [hidx]
  cases hro : P.refOut
  · rw [if_neg (by simp)]
    rw [xor_mod_two_pow, Nat.shiftLeft_eq, Nat.mul_mod_left, Nat.zero_xor,
      Nat.mod_eq_of_lt (by rw [h256]; exact htbl (c ^^^ b))]
  · rw [if_pos rfl]
    have hshift : c >>> 8 = 0 := by
      rw [Nat.shiftRight_eq_div_pow]
      exact Nat.div_eq_of_lt hc2
    rw [hshift, Nat.zero_xor, Nat.mod_eq_of_lt (by rw [h256]; exact htbl (c ^^^ b))]

theorem foldl_congr_inv (f g : Nat → Nat → Nat)
    (h : ∀ c b, c < 256 → b < 256 → f c b = g c b ∧ f c b < 256) :
    ∀ (data : List Nat) (c : Nat), c < 256 → (∀ b ∈ data, b < 256) →
      data.foldl f c = data.foldl g c := by
  intro data
  induction data with
  | nil => intro c _ _; rfl
  | cons b rest ih =>
    intro c hc hb
    rw [List.foldl_cons, List.foldl_cons]
    obtain ⟨heq, hlt⟩ := h c b hc (hb b (List.mem_cons_self b rest))
    rw [heq]
    exact ih (g c b) (heq ▸ hlt) (fun x hx => hb x (List.mem_cons_of_mem b hx))

/-- C10: for every 8-bit variant named in both engines and every non-empty
byte buffer, the specialized 8-bit engine of authlib.hpp returns the same
checksum as the generalized engine of serialib.hpp instantiated with that
variant's parameter tuple at width 8. -/
theorem authlib_refines_serialib (v : Authlib.Crc8Type) (data : List Nat)
    (hne : data ≠ []) (hlen : data.length < 2 ^ 64)
    (hbytes : ∀ b ∈ data, b < 256) :
    Authlib.crc_gen v data = Serialib.crc_gen (Authlib.toCRCType v) data := by
  have hP8 : (Serialib.crcParams (Authlib.toCRCType v)).bits = 8 := by
    cases v <;> rfl
  have htbl : Crc.generateCRCTable (Serialib.crcParams (Authlib.toCRCType v)).bits
      (Serialib.crcParams (Authlib.toCRCType v)).poly
      (Serialib.crcParams (Authlib.toCRCType v)).refIn
      (Serialib.crcParams (Authlib.toCRCType v)).refOut = Authlib.initCRCTable v := by
    cases v <;> rfl
  have hinit : (Serialib.crcParams (Authlib.toCRCType v)).init = Authlib.initCode v := by
    cases v <;> rfl
  have hinitlt : Authlib.initCode v < 256 := by
    cases v <;> decide
  have hfold : data.foldl
      (Serialib.crcStep (Serialib.crcParams (Authlib.toCRCType v))
        (Crc.generateCRCTable (Serialib.crcParams (Authlib.toCRCType v)).bits
          (Serialib.crcParams (Authlib.toCRCType v)).poly
          (Serialib.crcParams (Authlib.toCRCType v)).refIn
          (Serialib.crcParams (Authlib.toCRCType v)).refOut))
      (Serialib.crcParams (Authlib.toCRCType v)).init =
      data.foldl (fun crc b => (Authlib.initCRCTable v).getD (crc ^^^ b) 0)
        (Authlib.initCode v) := by
    rw [hinit]
    refine foldl_congr_inv _ _ ?_ data (Authlib.initCode v) hinitlt hbytes
    intro c b hc hb
    rw [htbl]
    constructor
    · rw [crcStep_width8 _ hP8 _ (fun i => initCRCTable_getD_lt v i) c b hc]
    · rw [crcStep_width8 _ hP8 _ (fun i => initCRCTable_getD_lt v i) c b hc]
      exact initCRCTable_getD_lt v (c ^^^ b)
  have hfin : ∀ x : Nat,
      (if v = Authlib.Crc8Type.itu then x ^^^ 0x55 else x) =
        x ^^^ (Serialib.crcParams (Authlib.toCRCType v)).xorOut := by
    intro x
    cases v <;> simp [Authlib.toCRCType, Serialib.crcParams]
  simp only [Authlib.crc_gen, Authlib.generateCRCCode, Serialib.crc_gen,
    Serialib.generateCRCCode]
  rw [doWhileFold_eq_foldl _ data _ hne hlen, doWhileFold_eq_foldl _ data _ hne hlen]
  simp only [Option.map_some']
  refine congrArg some ?_
  rw [hfold]
  exact hfin _

set_option maxRecDepth 40000 in
/-- Witness for C10 at the maxim variant on the one-byte buffer `[0x31]`. -/
theorem authlib_refines_serialib_witness :
    ([0x31] : List Nat) ≠ [] ∧ ([0x31] : List Nat).length < 2 ^ 64 ∧
    (∀ b ∈ ([0x31] : List Nat), b < 256) ∧
    Authlib.crc_gen .maxim [0x31] = Serialib.crc_gen (Authlib.toCRCType .maxim) [0x31] :=
  ⟨by decide, by decide, by decide,
    authlib_refines_serialib .maxim [0x31] (by decide) (by decide) (by decide)⟩
